import Mathlib

/-!
Verification of the fixed-point DRC math kernel (src/audio/drc/drc_math_generic.c
together with its header drc_math.h).

The kernel is shallowly embedded over the integers: a 32-bit fixed-point value in
format Qm.f is modelled as an integer carrying the raw value, whose real value is
raw / 2^f.  The Q-arithmetic primitives that the kernel includes from the wider
project (Q_CONVERT_FLOAT, Q_MULTSR_32X32, Q_SHIFT_RND, Q_SHIFT_LEFT, ABS) and the
two external collaborators (exp_fixed, db2lin_fixed) are not part of the given
sources; they are modelled from the specification, section 4.1: round-to-nearest
constant conversion, widened multiply with rounding rescale, rounding right
rescale, exact left rescale.  Rounding to nearest is realised as the
floor-of-half-up form used by fixed-point shift-add-shift sequences; on every
tie-free argument this is the unique nearest value.  The 64-bit intermediates of
the multiply-rescale never overflow for the documented domains, and the final
narrowing back to 32 bits is the identity there (spec section 3), so results are
kept as unbounded integers.  External collaborators are universally quantified
function parameters.

Division and remainder on the integers below are the Euclidean operations, which
for the positive powers of two used here coincide with flooring division, that
is, with the arithmetic right shifts of the C source.
-/

namespace DrcMath

/-- Modelled from the spec: Q_CONVERT_FLOAT (missing sof/audio/format.h),
compile-time conversion of a real literal to a fixed-point integer with q
fractional bits using round-to-nearest.  The real literal is passed as the
exact fraction num / den, and the result is the floor of
(num * 2^q) / den + 1/2, that is, round-to-nearest with halves up; every
constant below is tie-free, so the tie direction never matters. -/
def Q_CONVERT_FLOAT (num : ℤ) (den : ℕ) (q : ℕ) : ℤ :=
  (2 * num * 2 ^ q + den) / (2 * (den : ℤ))

/-- Modelled from the spec: the shared rounding rescale kernel, round-to-nearest
of t / 2^k in the half-up floor form ((t + 2^(k-1)) >> k) that the C shift
sequences compute; k is at least 1 at every use site. -/
def rnd (t : ℤ) (k : ℕ) : ℤ :=
  (t + 2 ^ (k - 1)) / 2 ^ k

/-- Modelled from the spec: Q_SHIFT_RND (missing sof/audio/format.h), rescale
from qsrc to fewer fractional bits qdst, rounding to nearest. -/
def Q_SHIFT_RND (x : ℤ) (qsrc qdst : ℕ) : ℤ :=
  rnd x (qsrc - qdst)

/-- Modelled from the spec: Q_SHIFT_LEFT (missing sof/audio/format.h), exact
rescale from qsrc to more fractional bits qdst by left shift. -/
def Q_SHIFT_LEFT (x : ℤ) (qsrc qdst : ℕ) : ℤ :=
  x * 2 ^ (qdst - qsrc)

/-- Modelled from the spec: Q_MULTSR_32X32 (missing sof/audio/format.h), exact
widened product of two fixed-point operands with qa and qb fractional bits,
rescaled with rounding to qy fractional bits. -/
def Q_MULTSR_32X32 (a b : ℤ) (qa qb qy : ℕ) : ℤ :=
  rnd (a * b) (qa + qb - qy)

/-- Modelled from the spec: ABS (missing sof/math/numbers.h), absolute value in
the conditional form of the C macro. -/
def ABS (x : ℤ) : ℤ := if x < 0 then -x else x

/-- Bit k of the 32-bit two's-complement representation of x, as tested by
x AND bitmask in the C source: bit k of x modulo 2^32. -/
def i32bit (x : ℤ) (k : ℕ) : Bool :=
  (x % 2 ^ 32) / 2 ^ k % 2 == 1

/-- The bit scan loop of warp_rexp.  The C loop runs the index bit from 31 down
while bit is positive, testing the mask 2^(bit-1) (the initial bitmask is
0x40000000) and breaking at the first set bit; falling out of the loop leaves
bit = 0.  scanLoop x fuel returns the final value of bit when the loop is
entered at index fuel. -/
def scanLoop (x : ℤ) : ℕ → ℕ
  | 0 => 0
  | b + 1 => if i32bit x b then b + 1 else scanLoop x b

/-- The number of executed iterations of the same loop (each test of the mask
counts as one iteration, whether or not it breaks). -/
def scanIters (x : ℤ) : ℕ → ℕ
  | 0 => 0
  | b + 1 => if i32bit x b then 1 else 1 + scanIters x b

/-- warp_rexp (drc_math_generic.c, lines 22-44): range-reduce x with
precision_x fractional bits into a Q2.30 mantissa and an exponent,
x about mantissa * 2^e.  Returns (mantissa, e). -/
def warp_rexp (x : ℤ) (precision_x : ℤ) : ℤ × ℤ :=
  let bit := scanLoop x 31
  let e := (bit : ℤ) - precision_x
  if 30 < bit then (Q_SHIFT_RND x bit 30, e)
  else if bit < 30 then (Q_SHIFT_LEFT x bit 30, e)
  else (x, e)

/- Function-scoped constants of warp_log10 (q_v = 26); raw values follow the
C initialisers via the modelled Q_CONVERT_FLOAT. -/
namespace Log10C

def ONE_OVER_SQRT2 : ℤ := Q_CONVERT_FLOAT 70710678118654752 (10 ^ 17) 30

def A5 : ℤ := Q_CONVERT_FLOAT 1131880283355712890625 (10 ^ 21) 26

def A4 : ℤ := Q_CONVERT_FLOAT (-4258677959442138671875) (10 ^ 21) 26

def A3 : ℤ := Q_CONVERT_FLOAT 681631565093994140625 (10 ^ 20) 26

def A2 : ℤ := Q_CONVERT_FLOAT (-61185703277587890625) (10 ^ 19) 26

def A1 : ℤ := Q_CONVERT_FLOAT 36505267620086669921875 (10 ^ 22) 26

def A0 : ℤ := Q_CONVERT_FLOAT (-1217894077301025390625) (10 ^ 21) 26

def LOG10_2 : ℤ := Q_CONVERT_FLOAT 301029995663981195214 (10 ^ 21) 26

end Log10C

/-- The polynomial tail of warp_log10 after range reduction: degree-5 evaluation
at the reduced Q2.30 mantissa m plus the exp * log10(2) / 2 reconstruction term,
exp1 being the Q31.1 exponent. -/
def log10poly (m exp1 : ℤ) : ℤ :=
  let x2 := Q_MULTSR_32X32 m m 30 30 30
  let x4 := Q_MULTSR_32X32 x2 x2 30 30 30
  let A5Xx := Q_MULTSR_32X32 Log10C.A5 m 26 30 26
  let A3Xx := Q_MULTSR_32X32 Log10C.A3 m 26 30 26
  Q_MULTSR_32X32 (A5Xx + Log10C.A4) x4 26 30 26
    + Q_MULTSR_32X32 (A3Xx + Log10C.A2) x2 26 30 26
    + Q_MULTSR_32X32 Log10C.A1 m 26 30 26
    + Log10C.A0
    + Q_MULTSR_32X32 exp1 Log10C.LOG10_2 1 26 26

/-- warp_log10 (drc_math_generic.c, lines 46-87): Q6.26 in, Q6.26 out.
Range-reduce at precision 26 (exp = e << 1 tracks half steps), extract a further
1/sqrt(2) factor when the mantissa exceeds it, then evaluate the polynomial. -/
def warp_log10 (x : ℤ) : ℤ :=
  let r := warp_rexp x 26
  if Log10C.ONE_OVER_SQRT2 < r.1 then
    log10poly (Q_MULTSR_32X32 r.1 Log10C.ONE_OVER_SQRT2 30 30 30) (r.2 * 2 + 1)
  else
    log10poly r.1 (r.2 * 2)

/-- linear_to_decibels (drc_math_generic.c, lines 89-101): Q6.26 in, Q11.21 out;
non-positive input returns the -1000.0 dB sentinel, otherwise 20*log10. -/
def linear_to_decibels (linear : ℤ) : ℤ :=
  if linear ≤ 0 then Q_CONVERT_FLOAT (-1000) 1 21
  else Q_MULTSR_32X32 20 (warp_log10 linear) 0 26 21

/-- Function-scoped constant of warp_log. -/
def LOG10 : ℤ := Q_CONVERT_FLOAT 23025850929940457 (10 ^ 16) 29

/-- warp_log (drc_math_generic.c, lines 103-116): Q6.26 in and out;
non-positive input returns the -30.0 sentinel, otherwise log10(x) * log(10). -/
def warp_log (x : ℤ) : ℤ :=
  if x ≤ 0 then Q_CONVERT_FLOAT (-30) 1 26
  else Q_MULTSR_32X32 LOG10 (warp_log10 x) 29 26 26

/-- decibels_to_linear (drc_math_generic.c, lines 13-20): Q8.24 in, Q12.20 out;
delegates to the external decibel-to-linear approximator db2lin_fixed, which is
out of scope and passed as a parameter. -/
def decibels_to_linear (db2lin_fixed : ℤ → ℤ) (decibels : ℤ) : ℤ :=
  db2lin_fixed decibels

/- Function-scoped constants of warp_sin (q_v = 30). -/
namespace SinC

def A7 : ℤ := Q_CONVERT_FLOAT (-43330336920917034149169921875) (10 ^ 31) 30

def A5 : ℤ := Q_CONVERT_FLOAT 79434238374233245849609375 (10 ^ 27) 30

def A3 : ℤ := Q_CONVERT_FLOAT (-645892798900604248046875) (10 ^ 24) 30

def A1 : ℤ := Q_CONVERT_FLOAT 15707910060882568359375 (10 ^ 22) 30

end SinC

/-- warp_sin (drc_math_generic.c, lines 118-143): Q2.30 in and out, degree-7 odd
polynomial approximation of sin(x*pi/2). -/
def warp_sin (x : ℤ) : ℤ :=
  let x2 := Q_MULTSR_32X32 x x 30 30 30
  let x4 := Q_MULTSR_32X32 x2 x2 30 30 30
  let A3Xx2 := Q_MULTSR_32X32 SinC.A3 x2 30 30 30
  let A7Xx2 := Q_MULTSR_32X32 SinC.A7 x2 30 30 30
  Q_MULTSR_32X32 x (Q_MULTSR_32X32 x4 (A7Xx2 + SinC.A5) 30 30 30 + A3Xx2 + SinC.A1) 30 30 30

/- Function-scoped constants of warp_asin (q_vl = 30 for the low branch,
q_vh = 26 for the high branch). -/
namespace AsinC

def TWO_OVER_PI : ℤ := Q_CONVERT_FLOAT 63661977236758134 (10 ^ 17) 30

def ONE_OVER_SQRT2 : ℤ := Q_CONVERT_FLOAT 70710678118654752 (10 ^ 17) 30

def A7L : ℤ := Q_CONVERT_FLOAT 1181826665997505187988281 (10 ^ 25) 30

def A5L : ℤ := Q_CONVERT_FLOAT 40224377065896987915039062 (10 ^ 27) 30

def A3L : ℤ := Q_CONVERT_FLOAT 1721895635128021240234375 (10 ^ 25) 30

def A1L : ℤ := Q_CONVERT_FLOAT 99977016448974609375 (10 ^ 20) 30

def A7H : ℤ := Q_CONVERT_FLOAT 1412774658203125 (10 ^ 14) 26

def A5H : ℤ := Q_CONVERT_FLOAT (-301692714691162109375) (10 ^ 19) 26

def A3H : ℤ := Q_CONVERT_FLOAT 214760608673095703125 (10 ^ 19) 26

def A1H : ℤ := Q_CONVERT_FLOAT (-3894591808319091796875) (10 ^ 21) 26

end AsinC

/-- warp_asin (drc_math_generic.c, lines 145-204): Q2.30 in and out; two-branch
degree-7 odd minimax fit selected on the magnitude of x against 1/sqrt(2); the
high branch first rescales x to Q6.26; both branches rescale by 2/pi at the
end. -/
def warp_asin (x : ℤ) : ℤ :=
  if ABS x ≤ AsinC.ONE_OVER_SQRT2 then
    let x2 := Q_MULTSR_32X32 x x 30 30 30
    let x4 := Q_MULTSR_32X32 x2 x2 30 30 30
    let A3Xx2 := Q_MULTSR_32X32 AsinC.A3L x2 30 30 30
    let A7Xx2 := Q_MULTSR_32X32 AsinC.A7L x2 30 30 30
    let asinx := Q_MULTSR_32X32 x
      (Q_MULTSR_32X32 x4 (A7Xx2 + AsinC.A5L) 30 30 30 + A3Xx2 + AsinC.A1L) 30 30 30
    Q_MULTSR_32X32 asinx AsinC.TWO_OVER_PI 30 30 30
  else
    let x' := Q_SHIFT_RND x 30 26
    let x2 := Q_MULTSR_32X32 x' x' 26 26 26
    let x4 := Q_MULTSR_32X32 x2 x2 26 26 26
    let A3Xx2 := Q_MULTSR_32X32 AsinC.A3H x2 26 26 26
    let A7Xx2 := Q_MULTSR_32X32 AsinC.A7H x2 26 26 26
    let asinx := Q_MULTSR_32X32 x'
      (Q_MULTSR_32X32 x4 (A7Xx2 + AsinC.A5H) 26 26 26 + A3Xx2 + AsinC.A1H) 26 26 26
    Q_MULTSR_32X32 asinx AsinC.TWO_OVER_PI 26 30 30

/-- warp_pow (drc_math_generic.c, lines 206-215): x^y as exp(y * log(x)); the
external exponential approximator exp_fixed is out of scope and passed as a
parameter. -/
def warp_pow (exp_fixed : ℤ → ℤ) (x y : ℤ) : ℤ :=
  exp_fixed (Q_MULTSR_32X32 y (warp_log x) 30 26 27)

/- Function-scoped constants of warp_inv (q_v = 25). -/
namespace InvC

def ONE_OVER_SQRT2 : ℤ := Q_CONVERT_FLOAT 70710678118654752 (10 ^ 17) 30

def SQRT2 : ℤ := Q_CONVERT_FLOAT 14142135623730950488 (10 ^ 19) 30

def A5 : ℤ := Q_CONVERT_FLOAT (-2742647647857666015625) (10 ^ 21) 25

def A4 : ℤ := Q_CONVERT_FLOAT 1401327800750732421875 (10 ^ 20) 25

def A3 : ℤ := Q_CONVERT_FLOAT (-2974465179443359375) (10 ^ 17) 25

def A2 : ℤ := Q_CONVERT_FLOAT 3357208251953125 (10 ^ 14) 25

def A1 : ℤ := Q_CONVERT_FLOAT (-2125031280517578125) (10 ^ 17) 25

def A0 : ℤ := Q_CONVERT_FLOAT 7152250766754150390625 (10 ^ 21) 25

end InvC

/-- warp_inv (drc_math_generic.c, lines 217-264): reciprocal, generic over the
caller-supplied input and output precisions; range reduction, optional sqrt(2)
extraction, degree-5 polynomial, undo of the extraction, final rescale to
precision_y by exponent comparison. -/
def warp_inv (x : ℤ) (precision_x precision_y : ℤ) : ℤ :=
  let r := warp_rexp x precision_x
  let s2 : Bool := r.1 < InvC.ONE_OVER_SQRT2
  let m := if s2 then Q_MULTSR_32X32 r.1 InvC.SQRT2 30 30 30 else r.1
  let x2 := Q_MULTSR_32X32 m m 30 30 30
  let x4 := Q_MULTSR_32X32 x2 x2 30 30 30
  let A5Xx := Q_MULTSR_32X32 InvC.A5 m 25 30 25
  let A3Xx := Q_MULTSR_32X32 InvC.A3 m 25 30 25
  let inv0 := Q_MULTSR_32X32 (A5Xx + InvC.A4) x4 25 30 25
    + Q_MULTSR_32X32 (A3Xx + InvC.A2) x2 25 30 25
    + Q_MULTSR_32X32 InvC.A1 m 25 30 25
    + InvC.A0
  let inv1 := if s2 then Q_MULTSR_32X32 inv0 InvC.SQRT2 25 30 25 else inv0
  let e := r.2 + 25
  if precision_y < e then rnd inv1 (e - precision_y).toNat
  else if e < precision_y then inv1 * 2 ^ (precision_y - e).toNat
  else inv1

/-- knee_exp (drc_math_generic.c, lines 266-273): Q5.27 in, Q12.20 out; thin
adapter over the external exponential approximator. -/
def knee_exp (exp_fixed : ℤ → ℤ) (input : ℤ) : ℤ :=
  exp_fixed input


/-! ## Helper lemmas -/

theorem scanIters_le (x : ℤ) (n : ℕ) : scanIters x n ≤ n := by
  induction n with
  | zero => simp [scanIters]
  | succ b ih => simp only [scanIters]; split <;> omega

/-- For a nonnegative x below 2^32 the masked bit test of the C loop reads the
binary digit of x itself. -/
theorem i32bit_nonneg {x : ℤ} (hx : 0 ≤ x) (h32 : x < 2 ^ 32) (k : ℕ) :
    i32bit x k = true ↔ x / 2 ^ k % 2 = 1 := by
  unfold i32bit
  rw [Int.emod_eq_of_lt hx h32]
  simp [beq_iff_eq]

/-- Entering the scan with fuel n bounds: for positive x below 2^n the loop
returns the position of the highest set bit plus one. -/
theorem scanLoop_spec {x : ℤ} : ∀ {n : ℕ}, n ≤ 32 → 0 < x → x < 2 ^ n →
    1 ≤ scanLoop x n ∧ scanLoop x n ≤ n ∧
    2 ^ (scanLoop x n - 1) ≤ x ∧ x < 2 ^ scanLoop x n := by
  intro n
  induction n with
  | zero =>
    intro _ hx hlt
    norm_num at hlt
    omega
  | succ b ih =>
    intro hn hx hlt
    have h32 : x < 2 ^ 32 := lt_of_lt_of_le hlt (pow_le_pow_right₀ (by norm_num) hn)
    have hpow : (0:ℤ) < 2 ^ b := by positivity
    have hdiv := Int.ediv_add_emod x (2 ^ b)
    have hmod0 : 0 ≤ x % 2 ^ b := Int.emod_nonneg x (by positivity)
    have hmodlt : x % 2 ^ b < 2 ^ b := Int.emod_lt_of_pos x hpow
    have hq0 : 0 ≤ x / 2 ^ b := Int.ediv_nonneg hx.le (by positivity)
    have hq2 : x / 2 ^ b < 2 := by
      rw [Int.ediv_lt_iff_lt_mul hpow]
      calc x < 2 ^ (b + 1) := hlt
        _ = 2 * 2 ^ b := by ring
    rcases (show x / 2 ^ b = 0 ∨ x / 2 ^ b = 1 by omega) with hq | hq
    · have hxb : x < 2 ^ b := by
        have := hdiv; rw [hq] at this; omega
      have hbit : i32bit x b = false := by
        have := (i32bit_nonneg hx.le h32 b).mp
        rcases hb : i32bit x b with _ | _
        · rfl
        · exfalso; have h1 := this hb; rw [hq] at h1; norm_num at h1
      have hrec := ih (by omega) hx hxb
      simp only [scanLoop, hbit, if_false, Bool.false_eq_true]
      exact ⟨hrec.1, by omega, hrec.2.2.1, hrec.2.2.2⟩
    · have hxb : 2 ^ b ≤ x := by
        have := hdiv; rw [hq] at this; omega
      have hbit : i32bit x b = true := by
        rw [i32bit_nonneg hx.le h32 b, hq]
        norm_num
      simp only [scanLoop, hbit, if_true]
      refine ⟨by omega, by omega, ?_, hlt⟩
      simpa using hxb

/-- Unfolded form of warp_rexp in terms of the scan result. -/
theorem warp_rexp_def (x px : ℤ) :
    warp_rexp x px =
      if 30 < scanLoop x 31 then (rnd x (scanLoop x 31 - 30), (scanLoop x 31 : ℤ) - px)
      else if scanLoop x 31 < 30 then (x * 2 ^ (30 - scanLoop x 31), (scanLoop x 31 : ℤ) - px)
      else (x, (scanLoop x 31 : ℤ) - px) := rfl

/-- The mantissa of warp_rexp for positive 32-bit input lies in [2^29, 2^30],
and the top value 2^30 is only reached at x = 2^31 - 1. -/
theorem warp_rexp_mantissa {x : ℤ} (px : ℤ) (hx : 0 < x) (h31 : x < 2 ^ 31) :
    2 ^ 29 ≤ (warp_rexp x px).1 ∧ (warp_rexp x px).1 ≤ 2 ^ 30 ∧
    (x < 2 ^ 31 - 1 → (warp_rexp x px).1 < 2 ^ 30) := by
  obtain ⟨hb1, hb31, hlo, hhi⟩ := scanLoop_spec (by norm_num) hx h31
  rw [warp_rexp_def]
  by_cases h30 : 30 < scanLoop x 31
  · have hb : scanLoop x 31 = 31 := by omega
    rw [if_pos h30, hb]
    rw [hb] at hlo
    dsimp only
    unfold rnd
    norm_num at hlo ⊢
    omega
  · rw [if_neg h30]
    by_cases hlt : scanLoop x 31 < 30
    · rw [if_pos hlt]
      dsimp only
      set b := scanLoop x 31 with hbdef
      have hble : x < 2 ^ b := hhi
      have e1 : (2:ℤ) ^ (b - 1) * 2 ^ (30 - b) = 2 ^ 29 := by
        rw [← pow_add]; congr 1; omega
      have e2 : (2:ℤ) ^ b * 2 ^ (30 - b) = 2 ^ 30 := by
        rw [← pow_add]; congr 1; omega
      have hp : (0:ℤ) < 2 ^ (30 - b) := by positivity
      constructor
      · calc (2:ℤ) ^ 29 = 2 ^ (b - 1) * 2 ^ (30 - b) := e1.symm
          _ ≤ x * 2 ^ (30 - b) := by
            exact mul_le_mul_of_nonneg_right hlo hp.le
      · have hx30 : x * 2 ^ (30 - b) < 2 ^ 30 := by
          calc x * 2 ^ (30 - b) < 2 ^ b * 2 ^ (30 - b) := by
                exact mul_lt_mul_of_pos_right hble hp
            _ = 2 ^ 30 := e2
        exact ⟨hx30.le, fun _ => hx30⟩
    · rw [if_neg hlt]
      dsimp only
      have hb : scanLoop x 31 = 30 := by omega
      rw [hb] at hlo hhi
      norm_num at hlo hhi
      norm_num
      omega

/-- The sentinel branch of warp_log. -/
theorem warp_log_nonpos {x : ℤ} (h : x ≤ 0) : warp_log x = -2013265920 := by
  unfold warp_log
  rw [if_pos h]
  decide

/-- The sentinel branch of linear_to_decibels. -/
theorem linear_to_decibels_nonpos {x : ℤ} (h : x ≤ 0) :
    linear_to_decibels x = -2097152000 := by
  unfold linear_to_decibels
  rw [if_pos h]
  decide

/-! ## Claim theorems -/

/-- C3: for every x at most 0 (Q6.26) warp_log returns exactly the Q6.26
encoding of -30.0, and for every linear at most 0 (Q6.26) linear_to_decibels
returns exactly the Q11.21 encoding of -1000.0; both are exact constants. -/
theorem sentinel_values_exact :
    (∀ x : ℤ, x ≤ 0 → warp_log x = -30 * 2 ^ 26) ∧
    (∀ linear : ℤ, linear ≤ 0 → linear_to_decibels linear = -1000 * 2 ^ 21) := by
  constructor
  · intro x h; rw [warp_log_nonpos h]; norm_num
  · intro l h; rw [linear_to_decibels_nonpos h]; norm_num

/-- Witness for C3 at the concrete inputs -5 and -7. -/
theorem sentinel_values_exact_witness :
    ((-5:ℤ) ≤ 0 ∧ warp_log (-5) = -30 * 2 ^ 26) ∧
    ((-7:ℤ) ≤ 0 ∧ linear_to_decibels (-7) = -1000 * 2 ^ 21) :=
  ⟨⟨by norm_num, sentinel_values_exact.1 (-5) (by norm_num)⟩,
   ⟨by norm_num, sentinel_values_exact.2 (-7) (by norm_num)⟩⟩

/-- C5 counterexample: warp_sin is not monotonically non-decreasing on the
Q2.30 range [-1, 1]: between the adjacent inputs 1073542580 and 1073542581
(about 0.99981, both inside [-2^30, 2^30]) the output decreases. -/
theorem warp_sin_monotone_counterexample :
    -(2:ℤ) ^ 30 ≤ 1073542580 ∧ (1073542580:ℤ) ≤ 1073542581 ∧
    (1073542581:ℤ) ≤ 2 ^ 30 ∧
    warp_sin 1073542581 < warp_sin 1073542580 := by
  exact ⟨by norm_num, by norm_num, by norm_num, by decide⟩

/-- C5 amended: warp_sin of 0 is exactly 0 (the monotonicity half of the claim
fails, see the counterexample). -/
theorem warp_sin_zero_exact : warp_sin 0 = 0 := by decide

/-- C6: the Q2.30 encoding of 0.70710678 is not above the ONE_OVER_SQRT2
constant, so warp_asin takes the low branch there, and the result is within
2e-5 of 0.5 in real value. -/
theorem warp_asin_inv_sqrt2_low_branch :
    ABS (Q_CONVERT_FLOAT 70710678 (10 ^ 8) 30) ≤ AsinC.ONE_OVER_SQRT2 ∧
    |(warp_asin (Q_CONVERT_FLOAT 70710678 (10 ^ 8) 30) : ℚ) / 2 ^ 30 - 1 / 2|
      ≤ 2 / 10 ^ 5 := by
  constructor
  · decide
  · have h : warp_asin (Q_CONVERT_FLOAT 70710678 (10 ^ 8) 30) = 536857928 := by
      decide
    rw [h]
    rw [abs_le]
    norm_num

/-- C7: for non-positive x the value of warp_pow is the external exponential
approximator applied to the widened multiply-rescale of y with the -30.0
sentinel of warp_log, for every choice of the external approximator; hence any
two non-positive bases give identical results. -/
theorem warp_pow_nonpos_guard (exp_fixed : ℤ → ℤ) (y x1 x2 : ℤ)
    (h1 : x1 ≤ 0) (h2 : x2 ≤ 0) :
    warp_pow exp_fixed x1 y
      = exp_fixed (Q_MULTSR_32X32 y (Q_CONVERT_FLOAT (-30) 1 26) 30 26 27) ∧
    warp_pow exp_fixed x1 y = warp_pow exp_fixed x2 y := by
  have hc : Q_CONVERT_FLOAT (-30) 1 26 = -2013265920 := by decide
  unfold warp_pow
  rw [warp_log_nonpos h1, warp_log_nonpos h2, hc]
  exact ⟨rfl, rfl⟩

/-- Witness for C7 with the identity as external approximator, y = 2^30 and the
non-positive bases -1 and -2013265920. -/
theorem warp_pow_nonpos_guard_witness :
    ((-1:ℤ) ≤ 0) ∧ ((-2013265920:ℤ) ≤ 0) ∧
    (warp_pow (fun z => z) (-1) (2 ^ 30)
      = (fun z => z) (Q_MULTSR_32X32 (2 ^ 30) (Q_CONVERT_FLOAT (-30) 1 26) 30 26 27) ∧
    warp_pow (fun z => z) (-1) (2 ^ 30) = warp_pow (fun z => z) (-2013265920) (2 ^ 30)) :=
  ⟨by norm_num, by norm_num,
   warp_pow_nonpos_guard (fun z => z) (2 ^ 30) (-1) (-2013265920)
     (by norm_num) (by norm_num)⟩

/-- C8: the bit scan of warp_rexp executes at most 31 iterations for every
input; it is the only loop in the kernel and its iteration count is bounded
independently of the input. -/
theorem warp_rexp_scan_bounded_iterations : ∀ x : ℤ, scanIters x 31 ≤ 31 :=
  fun x => scanIters_le x 31

/-- C9: on input 0 the bit scan finds no set bit and runs to index 0, so
warp_rexp returns mantissa 0 (a left shift of zero) and exponent
0 - precision_x, for every precision. -/
theorem warp_rexp_zero_input :
    scanLoop 0 31 = 0 ∧
    ∀ precision_x : ℤ, warp_rexp 0 precision_x = (0, 0 - precision_x) := by
  have h : scanLoop 0 31 = 0 := by decide
  refine ⟨h, fun px => ?_⟩
  rw [warp_rexp_def, h]
  norm_num


/-- Shuffling the fixed-point reconstruction: a bound on the mantissa against
x at the scale of the found bit transports to every output precision px. -/
theorem recon_reduce {q m : ℚ} {b px : ℤ}
    (h : |q - m * (2:ℚ) ^ b / 2 ^ 30| ≤ (2:ℚ) ^ b / 2 ^ 31) :
    |q / (2:ℚ) ^ px - m / 2 ^ 30 * (2:ℚ) ^ (b - px)| ≤ (2:ℚ) ^ (b - px) / 2 ^ 31 := by
  have h2 : (2:ℚ) ≠ 0 := two_ne_zero
  have hpx : (0:ℚ) < (2:ℚ) ^ px := zpow_pos (by norm_num) px
  rw [zpow_sub₀ h2]
  have e1 : q / (2:ℚ) ^ px - m / 2 ^ 30 * ((2:ℚ) ^ b / (2:ℚ) ^ px)
      = (q - m * (2:ℚ) ^ b / 2 ^ 30) / (2:ℚ) ^ px := by ring
  have e2 : (2:ℚ) ^ b / (2:ℚ) ^ px / 2 ^ 31 = ((2:ℚ) ^ b / 2 ^ 31) / (2:ℚ) ^ px := by
    ring
  rw [e1, e2, abs_div, abs_of_pos hpx, div_le_div_iff_of_pos_right hpx]
  exact h

/-- C2 counterexample: the claimed mantissa range [0.5, 1.0) fails for nonzero
inputs: at x = -1 the mantissa is 0, and at x = 2^31 - 1 the rounding of the
final shift produces exactly 2^30, the Q2.30 value 1.0. -/
theorem warp_rexp_mantissa_range_fails :
    ¬ (2 ^ 29 ≤ (warp_rexp (-1) 0).1 ∧ (warp_rexp (-1) 0).1 < 2 ^ 30) ∧
    ¬ (2 ^ 29 ≤ (warp_rexp (2 ^ 31 - 1) 0).1 ∧ (warp_rexp (2 ^ 31 - 1) 0).1 < 2 ^ 30) := by
  constructor <;> decide

/-- C2 amended: for every positive 32-bit x and every precision, the mantissa
lies in the closed interval [2^29, 2^30] (Q2.30 values [0.5, 1.0]), reaching
2^30 only at x = 2^31 - 1, and x / 2^precision_x equals mantissa / 2^30 * 2^e
up to the rounding of the final shift (exactly, below 2^30; within half a unit
of the mantissa scale above). -/
theorem warp_rexp_pos_spec (x px : ℤ) (hx : 0 < x) (h31 : x < 2 ^ 31) :
    2 ^ 29 ≤ (warp_rexp x px).1 ∧ (warp_rexp x px).1 ≤ 2 ^ 30 ∧
    (x < 2 ^ 31 - 1 → (warp_rexp x px).1 < 2 ^ 30) ∧
    |(x : ℚ) / (2:ℚ) ^ px - ((warp_rexp x px).1 : ℚ) / 2 ^ 30 * (2:ℚ) ^ (warp_rexp x px).2|
      ≤ (2:ℚ) ^ (warp_rexp x px).2 / 2 ^ 31 := by
  obtain ⟨hm1, hm2, hm3⟩ := warp_rexp_mantissa px hx h31
  refine ⟨hm1, hm2, hm3, ?_⟩
  obtain ⟨hb1, hb31, hlo, hhi⟩ := scanLoop_spec (by norm_num) hx h31
  rw [warp_rexp_def]
  by_cases h30 : 30 < scanLoop x 31
  · have hb : scanLoop x 31 = 31 := by omega
    rw [if_pos h30, hb]
    dsimp only
    apply recon_reduce
    rw [zpow_natCast]
    have hrnd : rnd x (31 - 30) = (x + 1) / 2 := by
      unfold rnd
      norm_num
    rw [hrnd]
    have hm : (((x + 1) / 2 : ℤ) : ℚ) * (2:ℚ) ^ (31:ℕ) / 2 ^ 30
        = (((x + 1) / 2 : ℤ) : ℚ) * 2 := by
      rw [pow_succ]
      field_simp
      ring
    rw [hm]
    have hone : (2:ℚ) ^ (31:ℕ) / (2:ℚ) ^ 31 = 1 := div_self (by positivity)
    rw [hone]
    have habs : |x - 2 * ((x + 1) / 2)| ≤ 1 := by
      rw [abs_le]
      constructor <;> omega
    have hcast : ((|x - 2 * ((x + 1) / 2)| : ℤ) : ℚ) ≤ ((1:ℤ) : ℚ) := by
      exact_mod_cast habs
    rw [Int.cast_abs] at hcast
    calc |(x:ℚ) - (((x + 1) / 2 : ℤ) : ℚ) * 2|
        = |((x - 2 * ((x + 1) / 2) : ℤ) : ℚ)| := by
          congr 1
          push_cast
          ring
      _ ≤ ((1:ℤ) : ℚ) := hcast
      _ = 1 := by norm_num
  · rw [if_neg h30]
    by_cases hlt : scanLoop x 31 < 30
    · rw [if_pos hlt]
      dsimp only
      apply recon_reduce
      have hble : scanLoop x 31 ≤ 30 := by omega
      have key : ((x * 2 ^ (30 - scanLoop x 31) : ℤ) : ℚ)
          * (2:ℚ) ^ ((scanLoop x 31 : ℕ) : ℤ) / 2 ^ 30 = (x:ℚ) := by
        push_cast
        rw [zpow_natCast]
        rw [mul_assoc, ← pow_add]
        rw [show 30 - scanLoop x 31 + scanLoop x 31 = 30 by omega]
        field_simp
      rw [key]
      simp
      positivity
    · rw [if_neg hlt]
      dsimp only
      apply recon_reduce
      have hb : scanLoop x 31 = 30 := by omega
      rw [hb]
      have key : (x : ℚ) * (2:ℚ) ^ ((30 : ℕ) : ℤ) / 2 ^ 30 = (x:ℚ) := by
        rw [zpow_natCast]
        field_simp
      rw [key]
      simp
      positivity

/-- Witness for C2 amended at x = 5, precision 26. -/
theorem warp_rexp_pos_spec_witness :
    ((0:ℤ) < 5 ∧ (5:ℤ) < 2 ^ 31) ∧
    (2 ^ 29 ≤ (warp_rexp 5 26).1 ∧ (warp_rexp 5 26).1 ≤ 2 ^ 30 ∧
    ((5:ℤ) < 2 ^ 31 - 1 → (warp_rexp 5 26).1 < 2 ^ 30) ∧
    |((5:ℤ) : ℚ) / (2:ℚ) ^ (26:ℤ) - ((warp_rexp 5 26).1 : ℚ) / 2 ^ 30 * (2:ℚ) ^ (warp_rexp 5 26).2|
      ≤ (2:ℚ) ^ (warp_rexp 5 26).2 / 2 ^ 31) :=
  ⟨⟨by norm_num, by norm_num⟩, warp_rexp_pos_spec 5 26 (by norm_num) (by norm_num)⟩


/-- The rounding rescale is monotone in its argument. -/
theorem rnd_le_rnd {a b : ℤ} (k : ℕ) (h : a ≤ b) : rnd a k ≤ rnd b k := by
  unfold rnd
  exact Int.ediv_le_ediv (by positivity) (by omega)

/-- The rounding rescale of a nonnegative argument is nonnegative. -/
theorem rnd_nonneg {a : ℤ} (k : ℕ) (h : 0 ≤ a) : 0 ≤ rnd a k := by
  unfold rnd
  exact Int.ediv_nonneg (by positivity) (by positivity)

/-- Interval bounds for the warp_log10 polynomial tail: for any mantissa in
[0, 2^30] and Q31.1 exponent in [-50, 11] the result stays inside the 32-bit
range, with a wide margin. -/
theorem log10poly_bounds {m e1 : ℤ} (hm0 : 0 ≤ m) (hm : m ≤ 2 ^ 30)
    (he1 : -50 ≤ e1) (he2 : e1 ≤ 11) :
    -(2:ℤ) ^ 31 ≤ log10poly m e1 ∧ log10poly m e1 ≤ 2 ^ 31 := by
  have hA5 : Log10C.A5 = 75959200 := by decide
  have hA4 : Log10C.A4 = -285795040 := by decide
  have hA3 : Log10C.A3 = 457435200 := by decide
  have hA2 : Log10C.A2 = -410610304 := by decide
  have hA1 : Log10C.A1 = 244982704 := by decide
  have hA0 : Log10C.A0 = -81731488 := by decide
  have hL : Log10C.LOG10_2 = 20201781 := by decide
  unfold log10poly
  dsimp only
  rw [hA5, hA4, hA3, hA2, hA1, hA0, hL]
  set x2 := Q_MULTSR_32X32 m m 30 30 30 with hx2def
  set x4 := Q_MULTSR_32X32 x2 x2 30 30 30 with hx4def
  set a5x := Q_MULTSR_32X32 75959200 m 26 30 26 with ha5def
  set a3x := Q_MULTSR_32X32 457435200 m 26 30 26 with ha3def
  have hx2a : 0 ≤ x2 := by
    rw [hx2def]; unfold Q_MULTSR_32X32
    exact rnd_nonneg _ (mul_nonneg hm0 hm0)
  have hx2b : x2 ≤ 2 ^ 30 := by
    rw [hx2def]; unfold Q_MULTSR_32X32
    calc rnd (m * m) (30 + 30 - 30) ≤ rnd (2 ^ 30 * 2 ^ 30) (30 + 30 - 30) :=
          rnd_le_rnd _ (by nlinarith)
      _ = 2 ^ 30 := by decide
  have hx4a : 0 ≤ x4 := by
    rw [hx4def]; unfold Q_MULTSR_32X32
    exact rnd_nonneg _ (mul_nonneg hx2a hx2a)
  have hx4b : x4 ≤ 2 ^ 30 := by
    rw [hx4def]; unfold Q_MULTSR_32X32
    calc rnd (x2 * x2) (30 + 30 - 30) ≤ rnd (2 ^ 30 * 2 ^ 30) (30 + 30 - 30) :=
          rnd_le_rnd _ (by nlinarith)
      _ = 2 ^ 30 := by decide
  have ha5a : 0 ≤ a5x := by
    rw [ha5def]; unfold Q_MULTSR_32X32
    exact rnd_nonneg _ (by positivity)
  have ha5b : a5x ≤ 75959200 := by
    rw [ha5def]; unfold Q_MULTSR_32X32
    calc rnd (75959200 * m) (26 + 30 - 26) ≤ rnd (75959200 * 2 ^ 30) (26 + 30 - 26) :=
          rnd_le_rnd _ (mul_le_mul_of_nonneg_left hm (by norm_num))
      _ = 75959200 := by decide
  have ha3a : 0 ≤ a3x := by
    rw [ha3def]; unfold Q_MULTSR_32X32
    exact rnd_nonneg _ (by positivity)
  have ha3b : a3x ≤ 457435200 := by
    rw [ha3def]; unfold Q_MULTSR_32X32
    calc rnd (457435200 * m) (26 + 30 - 26) ≤ rnd (457435200 * 2 ^ 30) (26 + 30 - 26) :=
          rnd_le_rnd _ (mul_le_mul_of_nonneg_left hm (by norm_num))
      _ = 457435200 := by decide
  have ht1a : -285795040 ≤ Q_MULTSR_32X32 (a5x + -285795040) x4 26 30 26 := by
    unfold Q_MULTSR_32X32
    calc (-285795040 : ℤ) = rnd ((-285795040) * 2 ^ 30) (26 + 30 - 26) := by decide
      _ ≤ rnd ((a5x + -285795040) * x4) (26 + 30 - 26) := by
          apply rnd_le_rnd
          calc (-285795040 : ℤ) * 2 ^ 30 ≤ (-285795040) * x4 :=
                mul_le_mul_of_nonpos_left hx4b (by norm_num)
            _ ≤ (a5x + -285795040) * x4 :=
                mul_le_mul_of_nonneg_right (by omega) hx4a
  have ht1b : Q_MULTSR_32X32 (a5x + -285795040) x4 26 30 26 ≤ 0 := by
    unfold Q_MULTSR_32X32
    calc rnd ((a5x + -285795040) * x4) (26 + 30 - 26)
        ≤ rnd (0 * x4) (26 + 30 - 26) := by
          apply rnd_le_rnd
          exact mul_le_mul_of_nonneg_right (by omega) hx4a
      _ = rnd 0 (26 + 30 - 26) := by rw [zero_mul]
      _ = 0 := by decide
  have ht2a : -410610304 ≤ Q_MULTSR_32X32 (a3x + -410610304) x2 26 30 26 := by
    unfold Q_MULTSR_32X32
    calc (-410610304 : ℤ) = rnd ((-410610304) * 2 ^ 30) (26 + 30 - 26) := by decide
      _ ≤ rnd ((a3x + -410610304) * x2) (26 + 30 - 26) := by
          apply rnd_le_rnd
          calc (-410610304 : ℤ) * 2 ^ 30 ≤ (-410610304) * x2 :=
                mul_le_mul_of_nonpos_left hx2b (by norm_num)
            _ ≤ (a3x + -410610304) * x2 :=
                mul_le_mul_of_nonneg_right (by omega) hx2a
  have ht2b : Q_MULTSR_32X32 (a3x + -410610304) x2 26 30 26 ≤ 46824896 := by
    unfold Q_MULTSR_32X32
    calc rnd ((a3x + -410610304) * x2) (26 + 30 - 26)
        ≤ rnd (46824896 * 2 ^ 30) (26 + 30 - 26) := by
          apply rnd_le_rnd
          calc (a3x + -410610304) * x2 ≤ 46824896 * x2 :=
                mul_le_mul_of_nonneg_right (by omega) hx2a
            _ ≤ 46824896 * 2 ^ 30 :=
                mul_le_mul_of_nonneg_left hx2b (by norm_num)
      _ = 46824896 := by decide
  have ht3a : 0 ≤ Q_MULTSR_32X32 244982704 m 26 30 26 := by
    unfold Q_MULTSR_32X32
    exact rnd_nonneg _ (by positivity)
  have ht3b : Q_MULTSR_32X32 244982704 m 26 30 26 ≤ 244982704 := by
    unfold Q_MULTSR_32X32
    calc rnd (244982704 * m) (26 + 30 - 26) ≤ rnd (244982704 * 2 ^ 30) (26 + 30 - 26) :=
          rnd_le_rnd _ (mul_le_mul_of_nonneg_left hm (by norm_num))
      _ = 244982704 := by decide
  have ht5a : -505044525 ≤ Q_MULTSR_32X32 e1 20201781 1 26 26 := by
    unfold Q_MULTSR_32X32
    calc (-505044525 : ℤ) = rnd ((-50) * 20201781) (1 + 26 - 26) := by decide
      _ ≤ rnd (e1 * 20201781) (1 + 26 - 26) :=
          rnd_le_rnd _ (mul_le_mul_of_nonneg_right he1 (by norm_num))
  have ht5b : Q_MULTSR_32X32 e1 20201781 1 26 26 ≤ 111109796 := by
    unfold Q_MULTSR_32X32
    calc rnd (e1 * 20201781) (1 + 26 - 26) ≤ rnd (11 * 20201781) (1 + 26 - 26) :=
          rnd_le_rnd _ (mul_le_mul_of_nonneg_right he2 (by norm_num))
      _ = 111109796 := by decide
  rw [show -(2:ℤ) ^ 31 = -2147483648 by norm_num, show (2:ℤ) ^ 31 = 2147483648 by norm_num]
  omega

/-- The second component of warp_rexp is always the scan result minus the
precision. -/
theorem warp_rexp_snd (x px : ℤ) :
    (warp_rexp x px).2 = (scanLoop x 31 : ℤ) - px := by
  rw [warp_rexp_def]
  split_ifs <;> rfl

/-- warp_log10 of a positive 32-bit input stays strictly inside the 32-bit
range. -/
theorem warp_log10_bounds {x : ℤ} (hx : 0 < x) (h31 : x < 2 ^ 31) :
    -(2:ℤ) ^ 31 ≤ warp_log10 x ∧ warp_log10 x ≤ 2 ^ 31 := by
  obtain ⟨hm1, hm2, _⟩ := warp_rexp_mantissa 26 hx h31
  obtain ⟨hb1, hb31, _, _⟩ := scanLoop_spec (by norm_num) hx h31
  have hsnd := warp_rexp_snd x 26
  unfold warp_log10
  dsimp only
  by_cases hbr : Log10C.ONE_OVER_SQRT2 < (warp_rexp x 26).1
  · rw [if_pos hbr]
    apply log10poly_bounds
    · unfold Q_MULTSR_32X32
      apply rnd_nonneg
      have hO : (0:ℤ) ≤ Log10C.ONE_OVER_SQRT2 := by decide
      have hmpos : (0:ℤ) ≤ (warp_rexp x 26).1 := le_trans (by positivity) hm1
      positivity
    · unfold Q_MULTSR_32X32
      have hO : (0:ℤ) ≤ Log10C.ONE_OVER_SQRT2 := by decide
      calc rnd ((warp_rexp x 26).1 * Log10C.ONE_OVER_SQRT2) (30 + 30 - 30)
          ≤ rnd (2 ^ 30 * Log10C.ONE_OVER_SQRT2) (30 + 30 - 30) :=
            rnd_le_rnd _ (mul_le_mul_of_nonneg_right hm2 hO)
        _ ≤ 2 ^ 30 := by decide
    · rw [hsnd]; omega
    · rw [hsnd]; omega
  · rw [if_neg hbr]
    apply log10poly_bounds
    · exact le_trans (by positivity) hm1
    · exact hm2
    · rw [hsnd]; omega
    · rw [hsnd]; omega

/-- C10: linear_to_decibels returns the -1000.0 dB sentinel exactly when its
input is non-positive; every positive Q6.26 input produces a strictly larger
value, because 20 times any value of warp_log10 rescaled to Q11.21 stays far
above the sentinel. -/
theorem linear_to_decibels_sentinel_iff (linear : ℤ) (h31 : linear < 2 ^ 31) :
    linear_to_decibels linear = -2097152000 ↔ linear ≤ 0 := by
  constructor
  · intro h
    by_contra hpos
    push_neg at hpos
    obtain ⟨hlo, hhi⟩ := warp_log10_bounds hpos h31
    unfold linear_to_decibels at h
    rw [if_neg (by omega)] at h
    unfold Q_MULTSR_32X32 at h
    norm_num at h
    have h1 : rnd (20 * -(2:ℤ) ^ 31) 5 ≤ rnd (20 * warp_log10 linear) 5 :=
      rnd_le_rnd _ (by nlinarith)
    have h2 : rnd (20 * -(2:ℤ) ^ 31) 5 = -1342177280 := by decide
    rw [h, h2] at h1
    omega
  · intro h
    exact linear_to_decibels_nonpos h

/-- Witness for C10 at the concrete inputs -3 (sentinel) and 2^26 = 1.0 (not
the sentinel). -/
theorem linear_to_decibels_sentinel_iff_witness :
    ((-3:ℤ) < 2 ^ 31 ∧ linear_to_decibels (-3) = -2097152000) ∧
    ((2:ℤ) ^ 26 < 2 ^ 31 ∧ ¬ linear_to_decibels (2 ^ 26) = -2097152000) :=
  ⟨⟨by norm_num, (linear_to_decibels_sentinel_iff (-3) (by norm_num)).mpr (by norm_num)⟩,
   ⟨by norm_num, fun hc => by
      have h := (linear_to_decibels_sentinel_iff (2 ^ 26) (by norm_num)).mp hc
      norm_num at h⟩⟩


set_option maxHeartbeats 1000000 in
/-- A rational lower bound on the natural log of 10, via the exponential
series: exp(d/4)^4 stays below 10 for d = 2.3025850925. -/
theorem log_ten_above : (921034037:ℝ) / 400000000 < Real.log 10 := by
  rw [Real.lt_log_iff_exp_lt (by norm_num)]
  have hq : (921034037:ℝ) / 400000000 = (4:ℕ) * (921034037 / 1600000000) := by norm_num
  rw [hq, Real.exp_nat_mul]
  have hub := Real.exp_bound' (by norm_num : (0:ℝ) ≤ 921034037 / 1600000000)
      (by norm_num : (921034037:ℝ) / 1600000000 ≤ 1) (n := 15) (by norm_num)
  have h0 : (0:ℝ) ≤ Real.exp (921034037 / 1600000000) := (Real.exp_pos _).le
  apply lt_of_le_of_lt (pow_le_pow_left₀ h0 hub 4)
  norm_num [Finset.sum_range_succ, Nat.factorial]

set_option maxHeartbeats 1000000 in
/-- A rational upper bound on the natural log of 992434523 / 33554432 (the
Q6.26 value 1984869046 / 2^26), via the exponential series: the degree-14
Taylor sum of exp(c/4), raised to the fourth power, already exceeds it for
c = 3.3869920831. -/
theorem log_xhat_below : Real.log ((992434523:ℝ) / 33554432) < 33869920831 / 10 ^ 10 := by
  rw [Real.log_lt_iff_lt_exp (by norm_num)]
  have hq : (33869920831:ℝ) / 10 ^ 10 = (4:ℕ) * (33869920831 / 40000000000) := by norm_num
  rw [hq, Real.exp_nat_mul]
  have hlb := Real.sum_le_exp_of_nonneg (by norm_num : (0:ℝ) ≤ 33869920831 / 40000000000) 15
  have hS : (0:ℝ) ≤ ∑ i ∈ Finset.range 15, ((33869920831:ℝ) / 40000000000) ^ i / i.factorial := by
    apply Finset.sum_nonneg
    intro i _
    positivity
  apply lt_of_lt_of_le ?_ (pow_le_pow_left₀ hS hlb 4)
  norm_num [Finset.sum_range_succ, Nat.factorial]

/-- C1 counterexample: at the Q6.26 input 1984869046 (value about 29.577,
inside (0, 32]) the absolute error of warp_log10 against the true base-10
logarithm exceeds 6.2e-8: the fixed-point rounding errors add about 3.1e-8 on
top of the polynomial fit error there, giving about 9.2e-8. -/
theorem warp_log10_error_bound_fails :
    (0:ℤ) < 1984869046 ∧ (1984869046:ℤ) < 2 ^ 31 ∧
    ¬ |((warp_log10 1984869046 : ℤ) : ℝ) / 2 ^ 26
        - Real.logb 10 ((1984869046:ℝ) / 2 ^ 26)| ≤ 62 / 10 ^ 9 := by
  refine ⟨by norm_num, by norm_num, ?_⟩
  have hval : warp_log10 1984869046 = 98713922 := by decide
  rw [hval, not_le]
  have harg : (1984869046:ℝ) / 2 ^ 26 = 992434523 / 33554432 := by norm_num
  rw [harg]
  have hlog10pos : (0:ℝ) < Real.log 10 := lt_trans (by norm_num) log_ten_above
  have hlogb : Real.logb 10 ((992434523:ℝ) / 33554432)
      < (33869920831 / 10 ^ 10) / (921034037 / 400000000) := by
    rw [← Real.log_div_log]
    rw [div_lt_div_iff₀ hlog10pos (by norm_num : (0:ℝ) < 921034037 / 400000000)]
    have hh1 : Real.log ((992434523:ℝ) / 33554432) * (921034037 / 400000000)
        < (33869920831 / 10 ^ 10) * (921034037 / 400000000) :=
      mul_lt_mul_of_pos_right log_xhat_below (by norm_num)
    have hh2 : ((33869920831:ℝ) / 10 ^ 10) * (921034037 / 400000000)
        < (33869920831 / 10 ^ 10) * Real.log 10 :=
      mul_lt_mul_of_pos_left log_ten_above (by norm_num)
    linarith
  have hcmp : (62:ℝ) / 10 ^ 9
      < (98713922:ℝ) / 2 ^ 26 - (33869920831 / 10 ^ 10) / (921034037 / 400000000) := by
    norm_num
  have hlt : (62:ℝ) / 10 ^ 9
      < ((98713922:ℤ):ℝ) / 2 ^ 26 - Real.logb 10 ((992434523:ℝ) / 33554432) := by
    push_cast
    linarith
  exact lt_of_lt_of_le hlt (le_abs_self _)

/-- C1 amended: at the decade points that are exact in Q6.26, the error bound
does hold: at x = 1.0 the error is exactly 4 units of 2^-26 (about 5.96e-8,
within 6.2e-8) and at x = 10.0 the result is exactly 1.0 (error 0); the
universal 6.2e-8 bound over all of (0, 32] fails (see the counterexample). -/
theorem warp_log10_exact_decades :
    |((warp_log10 (2 ^ 26) : ℤ) : ℝ) / 2 ^ 26
      - Real.logb 10 (((2:ℝ) ^ 26) / 2 ^ 26)| ≤ 62 / 10 ^ 9 ∧
    |((warp_log10 (10 * 2 ^ 26) : ℤ) : ℝ) / 2 ^ 26
      - Real.logb 10 ((10 * (2:ℝ) ^ 26) / 2 ^ 26)| ≤ 62 / 10 ^ 9 := by
  constructor
  · have h : warp_log10 (2 ^ 26) = 4 := by decide
    rw [h]
    have h1 : ((2:ℝ) ^ 26) / 2 ^ 26 = 1 := by norm_num
    rw [h1, Real.logb_one]
    rw [abs_le]
    constructor <;> norm_num
  · have h : warp_log10 (10 * 2 ^ 26) = 2 ^ 26 := by decide
    rw [h]
    have h1 : (10 * (2:ℝ) ^ 26) / 2 ^ 26 = 10 := by norm_num
    rw [h1, Real.logb_self_eq_one (by norm_num)]
    rw [abs_le]
    constructor <;> norm_num

end DrcMath
